import Mathlib

/-!
Shallow embedding of the contagion simulation (`contagionModel01.py`):
the agent transition rule, the one-agent-per-tick scheduler, the per-tick
event reset, the trace capture, the trace-constrained `Intervention`, the
`run` entry point and the experiment harness `main`.

Randomness is embedded by threading the state of the global pseudo-random
generator explicitly: a generator state carries the (abstract) streams of
`random.random()` draws and of the index draws consumed by
`random.choice`, together with how many draws of each kind have been
consumed.  `random.seed` replaces the generator state by a fresh one for
the seeded streams.  Fallible operations (choosing from an empty
sequence, a missing pandas key) return `Except`.
-/

namespace Contagion

/-- Health state of an agent (class `State` in the source). -/
inductive State where
  | HEALTHY
  | INFECTED
deriving DecidableEq

/-- Per-tick event of an agent (class `Event` in the source). -/
inductive Event where
  | INFECT
  | RECOVER
  | NOTHING
deriving DecidableEq

/-- A disease agent (class `DiseaseAgent`): its id, health state and the
transient per-tick event and cause fields.  The agent's grid position
equals its id, because the model places agent `i` on node `i`. -/
structure DiseaseAgent where
  unique_id : Nat
  state : State
  event : Event
  cause : Int
deriving DecidableEq

instance : Inhabited DiseaseAgent :=
  ⟨⟨0, State.HEALTHY, Event.NOTHING, -100⟩⟩

/-- `DiseaseAgent.infect`: mark the agent infected by `sender_id`
(the source's default sender is `-1`). -/
def DiseaseAgent.infect (a : DiseaseAgent) (sender_id : Int := -1) : DiseaseAgent :=
  { a with event := Event.INFECT, cause := sender_id, state := State.INFECTED }

/-- `DiseaseAgent.recover`: mark the agent recovered; `cause` returns to
the no-cause sentinel `-100`. -/
def DiseaseAgent.recover (a : DiseaseAgent) : DiseaseAgent :=
  { a with event := Event.RECOVER, state := State.HEALTHY, cause := -100 }

/-- One row of the collected agent-variables table: the `(Step, AgentID)`
key and the `State`, `Event`, `Cause` columns. -/
structure TraceEntry where
  step : Nat
  id : Nat
  state : State
  event : Event
  cause : Int
deriving DecidableEq

/-- The trace of a run: the rows collected so far, in collection order. -/
abbrev Trace := List TraceEntry

/-- The value streams a seeded Python random generator yields: the
successive `random.random()` draws and the successive index draws used by
`random.choice`. -/
structure RNGStreams where
  floats : Nat → Rat
  ints : Nat → Nat

/-- The state of the global random generator: its seeded streams plus how
many draws of each kind have been consumed. -/
structure RNG where
  streams : RNGStreams
  fpos : Nat
  ipos : Nat

/-- `random.seed`: reset the global generator to the streams determined by
the seed, discarding the previous generator state entirely. -/
def pySeed (s : RNGStreams) (_r : RNG) : RNG := ⟨s, 0, 0⟩

/-- `random.random()`: the next float draw. -/
def randFloat (r : RNG) : Rat × RNG :=
  (r.streams.floats r.fpos, ⟨r.streams, r.fpos + 1, r.ipos⟩)

/-- `random.choice`: return the element indexed by the next index draw;
raises on an empty sequence. -/
def randChoice (l : List α) (r : RNG) : Except String (α × RNG) :=
  if h : l.length = 0 then .error "Cannot choose from an empty sequence"
  else .ok (l.get ⟨r.streams.ints r.ipos % l.length,
      Nat.mod_lt _ (Nat.pos_of_ne_zero h)⟩,
    ⟨r.streams, r.fpos, r.ipos + 1⟩)

/-- The model state (class `DiseaseModel` together with its scheduler's
counter and the data collector's rows).  Agent `i` sits at list position
`i` and on graph node `i`. -/
structure DiseaseModel where
  num_agents : Nat
  initInfected : List Nat
  percInfect : Rat
  percRecover : Rat
  intervention : Option Trace
  agents : List DiseaseAgent
  steps : Nat
  trace : Trace
deriving DecidableEq

/-- Positional agent access; the model keeps agent `i` at position `i`. -/
def getAgent (agents : List DiseaseAgent) (i : Nat) : DiseaseAgent :=
  agents.getD i default

/-- Replace the agent object at a position (in-place mutation in Python). -/
def setAgent (agents : List DiseaseAgent) (i : Nat) (a : DiseaseAgent) :
    List DiseaseAgent :=
  agents.set i a

/-- Neighbour node ids of node `i` in the complete graph over `N` nodes,
in adjacency order: every node except `i`, ascending.  `include_center`
is false, so `i` itself never appears. -/
def neighborIds (N i : Nat) : List Nat :=
  (List.range N).filter (fun j => decide (j ≠ i))

/-- `DiseaseAgent.step`: draw `rand_inf` and `rand_rec`, choose one
neighbour from the unfiltered neighbour list, then run the source's
infection check and recovery check in order; the recovery check re-reads
`self.state` after the possible infection of the neighbour. -/
def agentStep (m : DiseaseModel) (i : Nat) (rng : RNG) :
    Except String (DiseaseModel × RNG) :=
  let p1 := randFloat rng
  let rand_inf := p1.1
  let p2 := randFloat p1.2
  let rand_rec := p2.1
  match randChoice (neighborIds m.num_agents i) p2.2 with
  | .error e => .error e
  | .ok (j, rng3) =>
    let selfA := getAgent m.agents i
    let nbr := getAgent m.agents j
    let agents1 :=
      if selfA.state = State.INFECTED ∧ rand_inf < m.percInfect then
        if ¬ nbr.state = State.INFECTED then
          setAgent m.agents j (nbr.infect (Int.ofNat i))
        else m.agents
      else m.agents
    let self2 := getAgent agents1 i
    let agents2 :=
      if self2.state = State.INFECTED ∧ rand_rec < m.percRecover then
        setAgent agents1 i self2.recover
      else agents1
    .ok ({ m with agents := agents2 }, rng3)

/-- `RandomSingleActivation.step`: activate one randomly chosen agent,
then advance the schedule counter by one. -/
def scheduleStep (m : DiseaseModel) (rng : RNG) :
    Except String (DiseaseModel × RNG) :=
  match randChoice m.agents rng with
  | .error e => .error e
  | .ok (a, rng1) =>
    match agentStep m a.unique_id rng1 with
    | .error e => .error e
    | .ok (m1, rng2) => .ok ({ m1 with steps := m1.steps + 1 }, rng2)

/-- The per-agent part of `DiseaseModel.reset_events`. -/
def resetAgents (agents : List DiseaseAgent) : List DiseaseAgent :=
  agents.map (fun a => { a with event := Event.NOTHING, cause := -100 })

/-- `DiseaseModel.reset_events`: clear every agent's transient event and
cause fields. -/
def reset_events (m : DiseaseModel) : DiseaseModel :=
  { m with agents := resetAgents m.agents }

/-- `get_agent_by_id`: the first agent whose `unique_id` matches. -/
def get_agent_by_id (agents : List DiseaseAgent) (idx : Nat) : DiseaseAgent :=
  (agents.filter (fun a => decide (a.unique_id = idx))).headD default

/-- Write a mutated agent object back: replace the first agent whose
`unique_id` matches (Python mutates that object in place). -/
def setAgentById : List DiseaseAgent → Nat → DiseaseAgent → List DiseaseAgent
  | [], _, _ => []
  | b :: tl, idx, a =>
    if b.unique_id = idx then a :: tl
    else b :: setAgentById tl idx a

/-- The pandas lookup `trace['Event'][(tick, idx)]`: the `Event` column of
the row keyed `(tick, idx)`, if that key exists. -/
def findEvent (tr : Trace) (tick idx : Nat) : Option Event :=
  (tr.find? (fun e => decide (e.step = tick ∧ e.id = idx))).map (fun e => e.event)

/-- The loop body of `Intervention.apply` over the agent ids: an agent
flagged `INFECT` is reverted via `recover()` unless the baseline event at
`(tick, id)` is also `INFECT`; a missing baseline row raises a `KeyError`
out of the lookup. -/
def applyLoop (tr : Trace) (tick : Nat) :
    List DiseaseAgent → List Nat → Except String (List DiseaseAgent)
  | agents, [] => .ok agents
  | agents, idx :: rest =>
    let a := get_agent_by_id agents idx
    if a.event = Event.INFECT then
      match findEvent tr tick idx with
      | none => .error "KeyError"
      | some ev =>
        if ev = Event.INFECT then applyLoop tr tick agents rest
        else applyLoop tr tick (setAgentById agents idx a.recover) rest
    else applyLoop tr tick agents rest

/-- `Intervention.apply`: one pass over all agent ids at
`tick = schedule.steps - 1`. -/
def interventionApply (tr : Trace) (m : DiseaseModel) :
    Except String DiseaseModel :=
  let tick := m.steps - 1
  match applyLoop tr tick m.agents (m.agents.map (fun a => a.unique_id)) with
  | .error e => .error e
  | .ok agents2 => .ok { m with agents := agents2 }

/-- The rows one collection pass appends: every agent's state, event and
cause, keyed by the completed 0-based tick and the agent id. -/
def tickRows (m : DiseaseModel) : Trace :=
  m.agents.map (fun a => ⟨m.steps - 1, a.unique_id, a.state, a.event, a.cause⟩)

/-- Modelled from the spec: the external mesa `DataCollector`'s per-tick
agent collection (the mesa library itself is not part of this repository):
after each tick every agent's state, event and cause are appended to the
trace, keyed by the completed 0-based tick and the agent id — the same
keying the `Intervention` reads back via `steps - 1` and that the harness
reads at the final tick `numTicks - 1`. -/
def collect (m : DiseaseModel) : DiseaseModel :=
  { m with trace := m.trace ++ tickRows m }

/-- `DiseaseModel.step`: event reset, one scheduler activation, the
intervention pass when configured, then trace collection. -/
def modelStep (m : DiseaseModel) (rng : RNG) :
    Except String (DiseaseModel × RNG) :=
  let m0 := reset_events m
  match scheduleStep m0 rng with
  | .error e => .error e
  | .ok (m1, rng1) =>
    match m1.intervention with
    | none => .ok (collect m1, rng1)
    | some tr =>
      match interventionApply tr m1 with
      | .error e => .error e
      | .ok m2 => .ok (collect m2, rng1)

/-- `DiseaseModel.__init__`: build the complete graph, create agent `i` on
node `i` (healthy, event `NOTHING`, cause `-100`), then force-infect the
agents listed in `initInfected`; that call passes no sender, so `infect`'s
default `sender_id = -1` is stored.  No argument validation occurs. -/
def diseaseModelInit (N : Nat) (initInfected : List Nat)
    (percInfect percRecover : Rat) (intervention : Option Trace) :
    DiseaseModel :=
  let agents0 := (List.range N).map (fun i =>
    ({ unique_id := i, state := State.HEALTHY, event := Event.NOTHING,
       cause := -100 } : DiseaseAgent))
  let agents := agents0.map (fun a =>
    if a.unique_id ∈ initInfected then a.infect else a)
  { num_agents := N, initInfected := initInfected, percInfect := percInfect,
    percRecover := percRecover, intervention := intervention,
    agents := agents, steps := 0, trace := [] }

/-- The tick loop of `run`: advance the model the given number of ticks. -/
def runTicks : DiseaseModel → RNG → Nat → Except String (DiseaseModel × RNG)
  | m, rng, 0 => .ok (m, rng)
  | m, rng, k + 1 =>
    match modelStep m rng with
    | .error e => .error e
    | .ok (m1, rng1) => runTicks m1 rng1 k

/-- `run(...)`: reseed the global generator (`random.seed(1)`), build a
fresh model, advance `numTicks` ticks and return the collected trace.
`seed1` stands for the draw streams the generator yields after seeding. -/
def run (seed1 : RNGStreams) (numAgents : Nat) (initInfected : List Nat)
    (percInfect percRecover : Rat) (numTicks : Nat)
    (intervention : Option Trace) (rng : RNG) :
    Except String (Trace × RNG) :=
  let rng1 := pySeed seed1 rng
  let m := diseaseModelInit numAgents initInfected percInfect percRecover
    intervention
  match runTicks m rng1 numTicks with
  | .error e => .error e
  | .ok (m1, rng2) => .ok (m1.trace, rng2)

/-- The final-tick infected ids read off a trace, in row order
(`main`'s `orig_infected_in_final` / `trace_infected_in_final`). -/
def finalInfected (tr : Trace) (numTicks : Nat) : List Nat :=
  (tr.filter (fun e =>
    decide (e.step = numTicks - 1 ∧ e.state = State.INFECTED))).map
    (fun e => e.id)

/-- Python's `list(set(A) - set(B))` up to iteration order: the members of
`A` not in `B`, without duplicates.  Every claim about a causal relation
is read as a statement about this set's membership. -/
def pySetDiff (A B : List Nat) : List Nat :=
  (A.filter (fun x => decide (x ∉ B))).dedup

/-- `main()`: the experiment harness — baseline run, the two simple
counterfactual loops and the intervention-based loop, accumulating
`causal_rel` keyed by variant name.  In the second loop the source
discards `run`'s result, so the final-set diff there reads the `trace`
variable left over from the first loop's last iteration. -/
def mainRun (seed1 : RNGStreams) (rng : RNG) :
    Except String (List (String × List Nat)) := do
  let numAgents := 10
  let initInfected : List Nat := [0, 1]
  let percInfect : Rat := mkRat 1 2
  let percRecover : Rat := mkRat 1 20
  let numTicks := 10 * numAgents
  let (orig_trace, rng) ← run seed1 numAgents initInfected percInfect
    percRecover numTicks none rng
  let orig_final := finalInfected orig_trace numTicks
  let acc1 ← initInfected.foldlM
    (fun (acc : List (String × List Nat) × Trace × RNG) a => do
      let (cr, _, rng) := acc
      let name := "tr_simpleCF1_wo" ++ toString a
      let (trace, rng) ← run seed1 numAgents
        (initInfected.filter (fun b => decide (a ≠ b)))
        percInfect percRecover numTicks none rng
      let tif := finalInfected trace numTicks
      pure (cr ++ [(name, pySetDiff orig_final tif)], trace, rng))
    ([], orig_trace, rng)
  let acc2 ← initInfected.foldlM
    (fun (acc : List (String × List Nat) × Trace × RNG) a => do
      let (cr, trace, rng) := acc
      let name := "tr_simpleCF2_wo" ++ toString a
      let (_t2, rng) ← run seed1 numAgents
        (initInfected.filter (fun b => decide (a ≠ b)))
        percInfect percRecover numTicks none rng
      let tif := finalInfected trace numTicks
      pure (cr ++ [(name, pySetDiff orig_final tif)], trace, rng))
    acc1
  let acc3 ← initInfected.foldlM
    (fun (acc : List (String × List Nat) × Trace × RNG) a => do
      let (cr, _, rng) := acc
      let name := "tr_intervCF_wo" ++ toString a
      let (trace, rng) ← run seed1 numAgents
        (initInfected.filter (fun b => decide (a ≠ b)))
        percInfect percRecover numTicks (some orig_trace) rng
      let tif := finalInfected trace numTicks
      pure (cr ++ [(name, pySetDiff orig_final tif)], trace, rng))
    acc2
  pure acc3.1

/-! Auxiliary definitions used by the statements below. -/

/-- Whether an `Except` computation succeeded. -/
def isOk : Except String α → Bool
  | .ok _ => true
  | .error _ => false

/-- The causal-relation entry `mainRun` reports for a variant name. -/
def lookupRel (r : Except String (List (String × List Nat))) (name : String) :
    Option (List Nat) :=
  match r with
  | .error _ => none
  | .ok cr => (cr.find? (fun p => decide (p.1 = name))).map (fun p => p.2)

/-- The final-tick infected ids of one harness-parameter run
(`numAgents = 10`, probabilities `0.5`/`0.05`, `numTicks = 100`). -/
def runFinal (s : RNGStreams) (seeds : List Nat) : Option (List Nat) :=
  match run s 10 seeds (mkRat 1 2) (mkRat 1 20) 100 none ⟨s, 0, 0⟩ with
  | .ok (tr, _) => some (finalInfected tr 100)
  | .error _ => none

/-- A possible seeded draw sequence in which every `random.random()` draw
is `0.9` (neither the infection nor the recovery check ever fires at the
harness probabilities) and every choice draw picks index 0. -/
def inertStreams : RNGStreams := ⟨fun _ => mkRat 9 10, fun _ => 0⟩

/-- A draw sequence in which every `random.random()` draw is `0` (both
checks always fire) and every choice draw picks index 0. -/
def zeroStreams : RNGStreams := ⟨fun _ => 0, fun _ => 0⟩

/-- A generator state over the inert streams. -/
def rng0 : RNG := ⟨inertStreams, 0, 0⟩

/-- A generator state over the all-zero streams. -/
def zeroRng : RNG := ⟨zeroStreams, 0, 0⟩

/-- Modelled from the spec: the configuration check the spec requires of
the constructor — a nonzero number of agents, every seed id within
`[0, num_agents)`, and both probabilities within `[0, 1]`.  The source
constructor contains no counterpart of this check; the definition exists
only to be compared against the embedded constructor. -/
def specConfigOk (N : Nat) (seeds : List Nat) (pInf pRec : Rat) : Bool :=
  decide (0 < N) && seeds.all (fun i => decide (i < N)) &&
    decide (0 ≤ pInf ∧ pInf ≤ 1) && decide (0 ≤ pRec ∧ pRec ≤ 1)

/-- A one-row baseline trace used as a concrete witness input. -/
def c4wTrace : Trace := [⟨0, 1, State.HEALTHY, Event.NOTHING, -100⟩]

/-- A concrete post-activation model state used as a witness input: agent
0 has just recovered and agent 1 has just been infected by agent 0. -/
def c4wModel : DiseaseModel :=
  ⟨2, [0], mkRat 1 2, mkRat 1 20, some c4wTrace,
    [⟨0, State.HEALTHY, Event.RECOVER, -100⟩,
     ⟨1, State.INFECTED, Event.INFECT, 0⟩], 1, []⟩

/-- The model a C1 witness run starts from: two agents, agent 0 seeded,
intervention constrained by the one-row baseline. -/
def c1wModel : DiseaseModel :=
  diseaseModelInit 2 [0] (mkRat 1 2) (mkRat 1 20) (some c4wTrace)

/-- The state after the first scheduler activation of `c1wModel` under
all-zero draws: agent 0 infected its neighbour and then recovered. -/
def c1wM1 : DiseaseModel :=
  ⟨2, [0], mkRat 1 2, mkRat 1 20, some c4wTrace,
    [⟨0, State.HEALTHY, Event.RECOVER, -100⟩,
     ⟨1, State.INFECTED, Event.INFECT, 0⟩], 1, []⟩

/-- The state after the full first `Model.step()` of `c1wModel` under
all-zero draws: the intervention reverted agent 1's infection before the
trace captured the tick. -/
def c1wMfin : DiseaseModel :=
  ⟨2, [0], mkRat 1 2, mkRat 1 20, some c4wTrace,
    [⟨0, State.HEALTHY, Event.RECOVER, -100⟩,
     ⟨1, State.HEALTHY, Event.RECOVER, -100⟩], 1,
    [⟨0, 0, State.HEALTHY, Event.RECOVER, -100⟩,
     ⟨0, 1, State.HEALTHY, Event.RECOVER, -100⟩]⟩

/-- Positional coherence of an agent list: the agent stored at position
`k` carries `unique_id = k`. -/
abbrev PosOK (agents : List DiseaseAgent) : Prop :=
  ∀ k ∈ List.range agents.length, (getAgent agents k).unique_id = k

/-- Well-formedness of a model state: the agent list has `num_agents`
entries and agent `i` sits at position `i`.  Established by the
constructor and preserved by every step. -/
abbrev WF (m : DiseaseModel) : Prop :=
  m.agents.length = m.num_agents ∧ PosOK m.agents

/-- Positional coherence with ids shifted by a base (used to recurse over
suffixes of an agent list). -/
abbrev IdsFrom (b : Nat) (agents : List DiseaseAgent) : Prop :=
  ∀ k ∈ List.range agents.length, (getAgent agents k).unique_id = b + k

/-- Event-cause coherence of an agent: the cause is the `-100` sentinel
exactly when the event is not `INFECT`, and an `INFECT` cause is an agent
id below `N`. -/
def EC (N : Nat) (a : DiseaseAgent) : Prop :=
  (a.cause = -100 ↔ ¬ a.event = Event.INFECT) ∧
    (a.event = Event.INFECT → 0 ≤ a.cause ∧ a.cause < (N : Int))

/-- Event-cause coherence of a trace row. -/
def ECe (N : Nat) (e : TraceEntry) : Prop :=
  (e.cause = -100 ↔ ¬ e.event = Event.INFECT) ∧
    (e.event = Event.INFECT → 0 ≤ e.cause ∧ e.cause < (N : Int))

/-- The trace entry recorded for key `(t, i)`: the most recently appended
row with that key. -/
def recordedAt (tr : Trace) (t i : Nat) : Option TraceEntry :=
  tr.reverse.find? (fun e => decide (e.step = t ∧ e.id = i))

/-- The number of trace rows keyed with tick `t`. -/
def countAt (tr : Trace) (t : Nat) : Nat :=
  (tr.filter (fun e => decide (e.step = t))).length

/-! Basic lemmas about agent-list access. -/

lemma getAgent_map_range (f : Nat → DiseaseAgent) {N i : Nat} (h : i < N) :
    getAgent ((List.range N).map f) i = f i := by
  simp [getAgent, List.getD_eq_getElem?_getD, List.getElem?_map,
    List.getElem?_range h]

lemma infect_unique_id (a : DiseaseAgent) (s : Int) :
    (a.infect s).unique_id = a.unique_id := rfl

lemma recover_unique_id (a : DiseaseAgent) :
    a.recover.unique_id = a.unique_id := rfl

lemma getAgent_set_eq {agents : List DiseaseAgent} {i : Nat}
    (h : i < agents.length) (a : DiseaseAgent) :
    getAgent (setAgent agents i a) i = a := by
  simp [getAgent, setAgent, List.getD_eq_getElem?_getD,
    List.getElem?_set_self, h]

lemma getAgent_set_ne {agents : List DiseaseAgent} {i k : Nat} (h : i ≠ k)
    (a : DiseaseAgent) :
    getAgent (setAgent agents i a) k = getAgent agents k := by
  simp [getAgent, setAgent, List.getD_eq_getElem?_getD,
    List.getElem?_set_ne, h]

lemma mem_neighborIds {N i j : Nat} :
    j ∈ neighborIds N i ↔ j < N ∧ j ≠ i := by
  simp [neighborIds, List.mem_filter, List.mem_range]

lemma randChoice_ok {α : Type} {l : List α} (r : RNG) (h : l.length ≠ 0) :
    randChoice l r = .ok (l.get ⟨r.streams.ints r.ipos % l.length,
      Nat.mod_lt _ (Nat.pos_of_ne_zero h)⟩, ⟨r.streams, r.fpos, r.ipos + 1⟩) := by
  simp [randChoice, h]

lemma randChoice_ok_mem {α : Type} {l : List α} {r r' : RNG} {x : α}
    (h : randChoice l r = .ok (x, r')) : x ∈ l := by
  by_cases hl : l.length = 0
  · simp [randChoice, hl] at h
  · rw [randChoice_ok r hl] at h
    obtain ⟨h1, _⟩ := Prod.mk.injEq .. ▸ (Except.ok.injEq .. ▸ h)
    exact h1 ▸ List.get_mem _ _ _

lemma getAgent_cons_zero (a : DiseaseAgent) (tl : List DiseaseAgent) :
    getAgent (a :: tl) 0 = a := rfl

lemma getAgent_cons_succ (a : DiseaseAgent) (tl : List DiseaseAgent) (k : Nat) :
    getAgent (a :: tl) (k + 1) = getAgent tl k := rfl

lemma getAgent_eq_getElem {agents : List DiseaseAgent} {k : Nat}
    (h : k < agents.length) : getAgent agents k = agents[k] := by
  simp [getAgent, List.getD_eq_getElem?_getD, List.getElem?_eq_getElem h]

lemma idsFrom_cons {b : Nat} {a : DiseaseAgent} {tl : List DiseaseAgent} :
    IdsFrom b (a :: tl) ↔ a.unique_id = b ∧ IdsFrom (b + 1) tl := by
  constructor
  · intro h
    refine ⟨by simpa using h 0 (by simp), ?_⟩
    intro k hk
    have hk' : k + 1 ∈ List.range (a :: tl).length := by
      simp only [List.mem_range, List.length_cons] at hk ⊢
      omega
    have := h (k + 1) hk'
    rw [getAgent_cons_succ] at this
    rw [this]
    omega
  · rintro ⟨ha, h⟩ k hk
    match k with
    | 0 => simpa using ha
    | k + 1 =>
      have hk' : k ∈ List.range tl.length := by
        simp only [List.mem_range, List.length_cons] at hk ⊢
        omega
      rw [getAgent_cons_succ]
      rw [h k hk']
      omega

lemma by_id_get : ∀ (agents : List DiseaseAgent) (b x : Nat),
    IdsFrom b agents → b ≤ x → x < b + agents.length →
    get_agent_by_id agents x = getAgent agents (x - b)
  | [], b, x, _, hx1, hx2 => by
    simp at hx2
    omega
  | a :: tl, b, x, h, hx1, hx2 => by
    obtain ⟨ha, htl⟩ := idsFrom_cons.mp h
    by_cases hxb : x = b
    · subst hxb
      simp [get_agent_by_id, List.filter_cons, ha, Nat.sub_self,
        getAgent_cons_zero]
    · have hlt : b + 1 ≤ x := by omega
      have hx2' : x < b + 1 + tl.length := by
        simp at hx2
        omega
      have hne : ¬ a.unique_id = x := by rw [ha]; omega
      have ih := by_id_get tl (b + 1) x htl hlt hx2'
      have hxs : x - b = (x - (b + 1)) + 1 := by omega
      rw [get_agent_by_id, List.filter_cons]
      simp only [decide_eq_false hne, Bool.false_eq_true, if_false]
      rw [hxs, getAgent_cons_succ]
      exact ih

lemma by_id_set : ∀ (agents : List DiseaseAgent) (b x : Nat)
    (a : DiseaseAgent), IdsFrom b agents → b ≤ x → x < b + agents.length →
    setAgentById agents x a = setAgent agents (x - b) a
  | [], b, x, a, _, hx1, hx2 => by
    simp at hx2
    omega
  | c :: tl, b, x, a, h, hx1, hx2 => by
    obtain ⟨hc, htl⟩ := idsFrom_cons.mp h
    by_cases hxb : x = b
    · subst hxb
      simp [setAgentById, hc, Nat.sub_self, setAgent]
    · have hlt : b + 1 ≤ x := by omega
      have hx2' : x < b + 1 + tl.length := by
        simp at hx2
        omega
      have hne : ¬ c.unique_id = x := by rw [hc]; omega
      have ih := by_id_set tl (b + 1) x a htl hlt hx2'
      have hxs : x - b = (x - (b + 1)) + 1 := by omega
      rw [setAgentById]
      simp only [hne, if_false]
      rw [hxs, setAgent, List.set_cons_succ]
      rw [setAgent] at ih
      rw [ih]


lemma idsFrom_set {agents : List DiseaseAgent} {idx : Nat}
    {a : DiseaseAgent} (h : IdsFrom 0 agents) (hidx : idx < agents.length)
    (ha : a.unique_id = idx) : IdsFrom 0 (setAgent agents idx a) := by
  intro k hk
  rw [setAgent, List.length_set] at hk
  by_cases hki : k = idx
  · subst hki
    rw [getAgent_set_eq hidx, ha]
    omega
  · rw [getAgent_set_ne (fun hh => hki hh.symm)]
    exact h k hk

lemma map_uid_eq_range {agents : List DiseaseAgent} (h : IdsFrom 0 agents) :
    agents.map (fun a => a.unique_id) = List.range agents.length := by
  apply List.ext_getElem
  · simp
  · intro k h1 h2
    rw [List.getElem_map, List.getElem_range]
    have := h k (by simpa using (by simpa using h1 : k < agents.length))
    rw [getAgent_eq_getElem (by simpa using h1)] at this
    omega

lemma applyLoop_spec (trB : Trace) (tick : Nat) :
    ∀ (ids : List Nat) (agents agents' : List DiseaseAgent),
      IdsFrom 0 agents → ids.Nodup → (∀ x ∈ ids, x < agents.length) →
      applyLoop trB tick agents ids = .ok agents' →
      agents'.length = agents.length ∧ IdsFrom 0 agents' ∧
      (∀ k, k < agents.length →
        ((k ∈ ids ∧ (getAgent agents k).event = Event.INFECT) →
          (findEvent trB tick k).isSome = true ∧
          getAgent agents' k =
            (if findEvent trB tick k = some Event.INFECT then
              getAgent agents k
             else (getAgent agents k).recover)) ∧
        ((k ∉ ids ∨ ¬ (getAgent agents k).event = Event.INFECT) →
          getAgent agents' k = getAgent agents k)) := by
  intro ids
  induction ids with
  | nil =>
    intro agents agents' hpos _ _ hok
    rw [applyLoop] at hok
    cases hok
    refine ⟨rfl, hpos, ?_⟩
    intro k _
    exact ⟨fun hc => absurd hc.1 (List.not_mem_nil k), fun _ => rfl⟩
  | cons idx rest ih =>
    intro agents agents' hpos hnd hbd hok
    obtain ⟨hnmem, hndr⟩ := List.nodup_cons.mp hnd
    have hidx : idx < agents.length := hbd idx (List.mem_cons_self idx rest)
    have hga : get_agent_by_id agents idx = getAgent agents idx := by
      have := by_id_get agents 0 idx hpos (Nat.zero_le idx) (by omega)
      simpa using this
    rw [applyLoop, hga] at hok
    by_cases hev : (getAgent agents idx).event = Event.INFECT
    · rw [if_pos hev] at hok
      cases hfe : findEvent trB tick idx with
      | none =>
        rw [hfe] at hok
        simp at hok
      | some ev =>
        rw [hfe] at hok
        dsimp only at hok
        by_cases hevi : ev = Event.INFECT
        · rw [if_pos hevi] at hok
          obtain ⟨hlen', hpos', hpt⟩ := ih agents agents' hpos hndr
            (fun x hx => hbd x (List.mem_cons_of_mem idx hx)) hok
          refine ⟨hlen', hpos', ?_⟩
          intro k hk
          constructor
          · rintro ⟨hkm, hke⟩
            rcases List.mem_cons.mp hkm with hkeq | hkr
            · subst hkeq
              refine ⟨by rw [hfe]; rfl, ?_⟩
              rw [hfe, hevi, if_pos rfl]
              exact ((hpt k hk).2 (Or.inl hnmem))
            · exact (hpt k hk).1 ⟨hkr, hke⟩
          · rintro (hkm | hke)
            · exact (hpt k hk).2
                (Or.inl (fun hkr => hkm (List.mem_cons_of_mem idx hkr)))
            · exact (hpt k hk).2 (Or.inr hke)
        · rw [if_neg hevi] at hok
          have hsetby : setAgentById agents idx (getAgent agents idx).recover
              = setAgent agents idx (getAgent agents idx).recover := by
            have := by_id_set agents 0 idx (getAgent agents idx).recover hpos
              (Nat.zero_le idx) (by omega)
            simpa using this
          rw [hsetby] at hok
          have hrid : ((getAgent agents idx).recover).unique_id = idx := by
            rw [recover_unique_id]
            have := hpos idx (by simpa using hidx)
            simpa using this
          have hpos2 : IdsFrom 0 (setAgent agents idx
              (getAgent agents idx).recover) := idsFrom_set hpos hidx hrid
          have hlen2 : (setAgent agents idx
              (getAgent agents idx).recover).length = agents.length := by
            rw [setAgent, List.length_set]
          have hbd2 : ∀ x ∈ rest, x < (setAgent agents idx
              (getAgent agents idx).recover).length := by
            intro x hx
            rw [hlen2]
            exact hbd x (List.mem_cons_of_mem idx hx)
          obtain ⟨hlen', hpos', hpt⟩ := ih _ agents' hpos2 hndr hbd2 hok
          rw [hlen2] at hlen'
          refine ⟨hlen', hpos', ?_⟩
          intro k hk
          by_cases hki : k = idx
          · subst hki
            constructor
            · rintro ⟨_, _⟩
              refine ⟨by rw [hfe]; rfl, ?_⟩
              have hne : ¬ findEvent trB tick k = some Event.INFECT := by
                rw [hfe]
                intro hcon
                exact hevi (Option.some.injEq .. ▸ hcon)
              rw [if_neg hne]
              have hunch := (hpt k (by rw [hlen2]; exact hk)).2 (Or.inl hnmem)
              rw [hunch, getAgent_set_eq hidx]
            · rintro (hkm | hke)
              · exact absurd (List.mem_cons_self k rest) hkm
              · exact absurd hev hke
          · have hsne : getAgent (setAgent agents idx
                (getAgent agents idx).recover) k = getAgent agents k :=
              getAgent_set_ne (fun hh => hki hh.symm) _
            constructor
            · rintro ⟨hkm, hke⟩
              rcases List.mem_cons.mp hkm with hkeq | hkr
              · exact absurd hkeq hki
              · have := (hpt k (by rw [hlen2]; exact hk)).1
                  ⟨hkr, by rw [hsne]; exact hke⟩
                rw [hsne] at this
                exact this
            · rintro (hkm | hke)
              · have := (hpt k (by rw [hlen2]; exact hk)).2
                  (Or.inl (fun hkr => hkm (List.mem_cons_of_mem idx hkr)))
                rw [hsne] at this
                exact this
              · have := (hpt k (by rw [hlen2]; exact hk)).2
                  (Or.inr (by rw [hsne]; exact hke))
                rw [hsne] at this
                exact this
    · rw [if_neg hev] at hok
      obtain ⟨hlen', hpos', hpt⟩ := ih agents agents' hpos hndr
        (fun x hx => hbd x (List.mem_cons_of_mem idx hx)) hok
      refine ⟨hlen', hpos', ?_⟩
      intro k hk
      constructor
      · rintro ⟨hkm, hke⟩
        rcases List.mem_cons.mp hkm with hkeq | hkr
        · subst hkeq
          exact absurd hke hev
        · exact (hpt k hk).1 ⟨hkr, hke⟩
      · rintro (hkm | hke)
        · exact (hpt k hk).2
            (Or.inl (fun hkr => hkm (List.mem_cons_of_mem idx hkr)))
        · exact (hpt k hk).2 (Or.inr hke)

lemma posOK_idsFrom {agents : List DiseaseAgent} (h : PosOK agents) :
    IdsFrom 0 agents := by
  intro k hk
  rw [h k hk]
  omega

lemma interventionApply_spec (trB : Trace) (m m2 : DiseaseModel)
    (hWF : WF m) (hok : interventionApply trB m = .ok m2) :
    m2.num_agents = m.num_agents ∧ m2.steps = m.steps ∧
    m2.trace = m.trace ∧ m2.intervention = m.intervention ∧ WF m2 ∧
    (∀ k, k < m.num_agents →
      ((getAgent m.agents k).event = Event.INFECT →
        (findEvent trB (m.steps - 1) k).isSome = true ∧
        getAgent m2.agents k =
          (if findEvent trB (m.steps - 1) k = some Event.INFECT then
            getAgent m.agents k
           else (getAgent m.agents k).recover)) ∧
      (¬ (getAgent m.agents k).event = Event.INFECT →
        getAgent m2.agents k = getAgent m.agents k)) := by
  obtain ⟨hlen, hpos⟩ := hWF
  have hids : m.agents.map (fun a => a.unique_id) =
      List.range m.agents.length := map_uid_eq_range (posOK_idsFrom hpos)
  rw [interventionApply, hids] at hok
  cases happ : applyLoop trB (m.steps - 1) m.agents
      (List.range m.agents.length) with
  | error e =>
    rw [happ] at hok
    simp at hok
  | ok agents2 =>
    rw [happ] at hok
    dsimp only at hok
    cases hok
    obtain ⟨hlen', hpos', hpt⟩ := applyLoop_spec trB (m.steps - 1)
      (List.range m.agents.length) m.agents agents2 (posOK_idsFrom hpos)
      (List.nodup_range _) (fun x hx => List.mem_range.mp hx) happ
    refine ⟨rfl, rfl, rfl, rfl,
      ⟨show agents2.length = m.num_agents by rw [hlen']; exact hlen, ?_⟩, ?_⟩
    · intro k hk
      show (getAgent agents2 k).unique_id = k
      have h3 := hpos' k hk
      rw [h3]
      omega
    · intro k hk
      rw [← hlen] at hk
      have h1 := (hpt k hk).1
      have h2 := (hpt k hk).2
      constructor
      · intro hke
        exact h1 ⟨List.mem_range.mpr hk, hke⟩
      · intro hke
        exact h2 (Or.inr hke)

/-! Claim C4 — missing baseline entry during an intervention pass. -/

/-- Claim C4 counterexample: with an empty baseline trace, the first tick
of a counterfactual run in which agent 1 is infected makes the
intervention's baseline lookup miss, and `Model.step()` fails with the
lookup's `KeyError` instead of suppressing the infection. -/
theorem missing_baseline_entry_keyerror_cx :
    modelStep (diseaseModelInit 2 [0] (mkRat 1 2) (mkRat 1 20) (some []))
      zeroRng = .error "KeyError" := by rfl

/-- Claim C4 (amended): the intervention performs a bare lookup, so the
pass only ever completes when every agent flagged `INFECT` has a baseline
row at `(steps - 1, id)`; a missing row raises a `KeyError` that
propagates out of `Model.step()` rather than being treated as
"suppress". -/
theorem intervention_success_requires_baseline_entries
    (trB : Trace) (m m2 : DiseaseModel) (i : Nat)
    (hWF : WF m) (hok : interventionApply trB m = .ok m2)
    (hi : i < m.num_agents)
    (hev : (getAgent m.agents i).event = Event.INFECT) :
    (findEvent trB (m.steps - 1) i).isSome = true :=
  (((interventionApply_spec trB m m2 hWF hok).2.2.2.2.2 i hi).1 hev).1

/-- Witness for the amended C4 theorem: an intervention pass that
succeeds because the flagged agent's coordinate is present. -/
theorem intervention_success_requires_baseline_entries_witness :
    (findEvent c4wTrace 0 1).isSome = true := by
  cases hres : interventionApply c4wTrace c4wModel with
  | error e =>
    have hok : isOk (interventionApply c4wTrace c4wModel) = true := by decide
    rw [hres] at hok
    simp [isOk] at hok
  | ok m2 =>
    exact intervention_success_requires_baseline_entries c4wTrace c4wModel m2
      1 (by decide) hres (by decide) (by decide)

lemma getAgent_map {f : DiseaseAgent → DiseaseAgent}
    {agents : List DiseaseAgent} {k : Nat} (hk : k < agents.length) :
    getAgent (agents.map f) k = f (getAgent agents k) := by
  rw [getAgent_eq_getElem (by simpa using hk), List.getElem_map,
    getAgent_eq_getElem hk]

lemma mem_uid_lt {agents : List DiseaseAgent} (h : IdsFrom 0 agents)
    {a : DiseaseAgent} (ha : a ∈ agents) : a.unique_id < agents.length := by
  obtain ⟨k, hk, rfl⟩ := List.getElem_of_mem ha
  have := h k (List.mem_range.mpr hk)
  rw [getAgent_eq_getElem hk] at this
  omega

lemma mem_uid_eq {agents : List DiseaseAgent} (h : IdsFrom 0 agents)
    {a : DiseaseAgent} (ha : a ∈ agents) :
    getAgent agents a.unique_id = a := by
  obtain ⟨k, hk, rfl⟩ := List.getElem_of_mem ha
  have hid := h k (List.mem_range.mpr hk)
  rw [getAgent_eq_getElem hk] at hid
  rw [show agents[k].unique_id = k by omega, getAgent_eq_getElem hk]

lemma resetAgents_length (agents : List DiseaseAgent) :
    (resetAgents agents).length = agents.length := by
  simp [resetAgents]

lemma resetAgents_idsFrom {agents : List DiseaseAgent}
    (h : IdsFrom 0 agents) : IdsFrom 0 (resetAgents agents) := by
  intro k hk
  rw [resetAgents_length] at hk
  rw [resetAgents, getAgent_map (List.mem_range.mp hk)]
  exact h k hk

lemma EC_reset {N : Nat} {a : DiseaseAgent}
    (he : a.event = Event.NOTHING) (hc : a.cause = -100) : EC N a := by
  refine ⟨by simp [hc, he], ?_⟩
  intro hcon
  rw [he] at hcon
  cases hcon

lemma EC_infect {N i : Nat} (hi : i < N) (b : DiseaseAgent) :
    EC N (b.infect (Int.ofNat i)) := by
  constructor
  · simp only [DiseaseAgent.infect, Int.ofNat_eq_coe]
    apply iff_of_false
    · omega
    · simp
  · intro _
    simp only [DiseaseAgent.infect, Int.ofNat_eq_coe]
    omega

lemma EC_recover {N : Nat} (b : DiseaseAgent) : EC N b.recover := by
  refine ⟨by simp [DiseaseAgent.recover], ?_⟩
  intro hcon
  rw [DiseaseAgent.recover] at hcon
  cases hcon

lemma setAgent_length (agents : List DiseaseAgent) (i : Nat)
    (a : DiseaseAgent) : (setAgent agents i a).length = agents.length := by
  simp [setAgent]

lemma agentStep_spec {m m' : DiseaseModel} {i : Nat} {rng rng' : RNG}
    (h : agentStep m i rng = .ok (m', rng')) :
    m'.num_agents = m.num_agents ∧ m'.initInfected = m.initInfected ∧
    m'.percInfect = m.percInfect ∧ m'.percRecover = m.percRecover ∧
    m'.intervention = m.intervention ∧ m'.steps = m.steps ∧
    m'.trace = m.trace ∧ m'.agents.length = m.agents.length ∧
    (∀ a' ∈ m'.agents, a' ∈ m.agents ∨
      (∃ b : DiseaseAgent, a' = b.infect (Int.ofNat i)) ∨
      ∃ b : DiseaseAgent, a' = b.recover) ∧
    (IdsFrom 0 m.agents → m.agents.length = m.num_agents →
      i < m.agents.length → IdsFrom 0 m'.agents) := by
  simp only [agentStep, randFloat] at h
  cases hrc : randChoice (neighborIds m.num_agents i)
      ⟨rng.streams, rng.fpos + 1 + 1, rng.ipos⟩ with
  | error e =>
    rw [hrc] at h
    simp at h
  | ok p =>
    obtain ⟨j, rng3⟩ := p
    rw [hrc] at h
    dsimp only at h
    have hj : j ∈ neighborIds m.num_agents i := randChoice_ok_mem hrc
    have hjN : j < m.num_agents := (mem_neighborIds.mp hj).1
    rw [Except.ok.injEq, Prod.mk.injEq] at h
    obtain ⟨hm', _hrng'⟩ := h
    subst hm'
    dsimp only
    generalize hA1 : (if (getAgent m.agents i).state = State.INFECTED ∧
        rng.streams.floats rng.fpos < m.percInfect then
        (if ¬ (getAgent m.agents j).state = State.INFECTED then
          setAgent m.agents j ((getAgent m.agents j).infect (Int.ofNat i))
        else m.agents) else m.agents) = A1
    have hA1len : A1.length = m.agents.length := by
      rw [← hA1]
      split
      · split
        · exact setAgent_length ..
        · rfl
      · rfl
    have hA1mem : ∀ b' ∈ A1, b' ∈ m.agents ∨
        ∃ b : DiseaseAgent, b' = b.infect (Int.ofNat i) := by
      intro b' hb'
      rw [← hA1] at hb'
      split at hb'
      · split at hb'
        · rcases List.mem_or_eq_of_mem_set hb' with hmm | hmm
          · exact Or.inl hmm
          · exact Or.inr ⟨_, hmm⟩
        · exact Or.inl hb'
      · exact Or.inl hb'
    have hA1pos : IdsFrom 0 m.agents → m.agents.length = m.num_agents →
        IdsFrom 0 A1 := by
      intro hpos hlen
      rw [← hA1]
      split
      · split
        · refine idsFrom_set hpos (by omega) ?_
          rw [infect_unique_id]
          have := hpos j (List.mem_range.mpr (by omega))
          omega
        · exact hpos
      · exact hpos
    generalize hA2 : (if (getAgent A1 i).state = State.INFECTED ∧
        rng.streams.floats (rng.fpos + 1) < m.percRecover then
        setAgent A1 i (getAgent A1 i).recover else A1) = A2
    have hA2len : A2.length = A1.length := by
      rw [← hA2]
      split
      · exact setAgent_length ..
      · rfl
    refine ⟨rfl, rfl, rfl, rfl, rfl, rfl, rfl, ?_, ?_, ?_⟩
    · rw [hA2len, hA1len]
    · intro a' ha'
      have ha2 : a' ∈ A2 := ha'
      rw [← hA2] at ha2
      split at ha2
      · rcases List.mem_or_eq_of_mem_set ha2 with hmm | hmm
        · rcases hA1mem _ hmm with h1 | h1
          · exact Or.inl h1
          · exact Or.inr (Or.inl h1)
        · exact Or.inr (Or.inr ⟨_, hmm⟩)
      · rcases hA1mem _ ha2 with h1 | h1
        · exact Or.inl h1
        · exact Or.inr (Or.inl h1)
    · intro hpos hlen hi
      have hp1 := hA1pos hpos hlen
      show IdsFrom 0 A2
      rw [← hA2]
      split
      · refine idsFrom_set hp1 (by omega) ?_
        rw [recover_unique_id]
        have := hp1 i (List.mem_range.mpr (by omega))
        omega
      · exact hp1

lemma scheduleStep_spec {m m1 : DiseaseModel} {rng rng1 : RNG}
    (h : scheduleStep m rng = .ok (m1, rng1)) :
    m1.num_agents = m.num_agents ∧ m1.initInfected = m.initInfected ∧
    m1.percInfect = m.percInfect ∧ m1.percRecover = m.percRecover ∧
    m1.intervention = m.intervention ∧ m1.steps = m.steps + 1 ∧
    m1.trace = m.trace ∧ m1.agents.length = m.agents.length ∧
    (WF m →
      WF m1 ∧ ∀ a' ∈ m1.agents, a' ∈ m.agents ∨
        (∃ s : Nat, s < m.num_agents ∧
          ∃ b : DiseaseAgent, a' = b.infect (Int.ofNat s)) ∨
        ∃ b : DiseaseAgent, a' = b.recover) := by
  simp only [scheduleStep] at h
  cases hrc : randChoice m.agents rng with
  | error e =>
    rw [hrc] at h
    simp at h
  | ok p =>
    obtain ⟨a, rngA⟩ := p
    rw [hrc] at h
    dsimp only at h
    cases has : agentStep m a.unique_id rngA with
    | error e =>
      rw [has] at h
      simp at h
    | ok q =>
      obtain ⟨m2, rng2⟩ := q
      rw [has] at h
      dsimp only at h
      rw [Except.ok.injEq, Prod.mk.injEq] at h
      obtain ⟨hm1, _hrng1⟩ := h
      subst hm1
      have hmem := randChoice_ok_mem hrc
      obtain ⟨f1, f2, f3, f4, f5, f6, f7, f8, f9, f10⟩ := agentStep_spec has
      refine ⟨f1, f2, f3, f4, f5, by rw [f6], f7, f8, ?_⟩
      intro hWF
      obtain ⟨hlen, hpos⟩ := hWF
      have hid : a.unique_id < m.num_agents := by
        have := mem_uid_lt (posOK_idsFrom hpos) hmem
        omega
      constructor
      · refine ⟨by rw [f8, hlen, f1], ?_⟩
        intro k hk
        have := f10 (posOK_idsFrom hpos) hlen (by omega) k hk
        simpa using this
      · intro a' ha'
        rcases f9 a' ha' with h1 | h1 | h1
        · exact Or.inl h1
        · exact Or.inr (Or.inl ⟨a.unique_id, hid, h1⟩)
        · exact Or.inr (Or.inr h1)

lemma setAgentById_mem : ∀ (agents : List DiseaseAgent) (idx : Nat)
    (a a' : DiseaseAgent), a' ∈ setAgentById agents idx a →
    a' ∈ agents ∨ a' = a
  | [], _, _, _, h => by simp [setAgentById] at h
  | b :: tl, idx, a, a', h => by
    rw [setAgentById] at h
    split at h
    · rcases List.mem_cons.mp h with h1 | h1
      · exact Or.inr h1
      · exact Or.inl (List.mem_cons_of_mem b h1)
    · rcases List.mem_cons.mp h with h1 | h1
      · exact Or.inl (h1 ▸ List.mem_cons_self b tl)
      · rcases setAgentById_mem tl idx a a' h1 with h2 | h2
        · exact Or.inl (List.mem_cons_of_mem b h2)
        · exact Or.inr h2

lemma applyLoop_mem (trB : Trace) (tick : Nat) :
    ∀ (ids : List Nat) (agents agents' : List DiseaseAgent),
      applyLoop trB tick agents ids = .ok agents' →
      ∀ a' ∈ agents', a' ∈ agents ∨ ∃ b : DiseaseAgent, a' = b.recover := by
  intro ids
  induction ids with
  | nil =>
    intro agents agents' hok a' ha'
    rw [applyLoop] at hok
    cases hok
    exact Or.inl ha'
  | cons idx rest ih =>
    intro agents agents' hok a' ha'
    rw [applyLoop] at hok
    split at hok
    · cases hfe : findEvent trB tick idx with
      | none =>
        rw [hfe] at hok
        simp at hok
      | some ev =>
        rw [hfe] at hok
        dsimp only at hok
        split at hok
        · exact ih agents agents' hok a' ha'
        · rcases ih _ agents' hok a' ha' with h1 | h1
          · rcases setAgentById_mem _ _ _ _ h1 with h2 | h2
            · exact Or.inl h2
            · exact Or.inr ⟨_, h2⟩
          · exact Or.inr h1
    · exact ih agents agents' hok a' ha'

lemma interventionApply_frame {trB : Trace} {m m2 : DiseaseModel}
    (hok : interventionApply trB m = .ok m2) :
    m2.num_agents = m.num_agents ∧ m2.initInfected = m.initInfected ∧
    m2.percInfect = m.percInfect ∧ m2.percRecover = m.percRecover ∧
    m2.intervention = m.intervention ∧ m2.steps = m.steps ∧
    m2.trace = m.trace ∧
    ∀ a' ∈ m2.agents, a' ∈ m.agents ∨ ∃ b : DiseaseAgent, a' = b.recover := by
  rw [interventionApply] at hok
  cases happ : applyLoop trB (m.steps - 1) m.agents
      (m.agents.map fun a => a.unique_id) with
  | error e =>
    rw [happ] at hok
    simp at hok
  | ok agents2 =>
    rw [happ] at hok
    dsimp only at hok
    cases hok
    exact ⟨rfl, rfl, rfl, rfl, rfl, rfl, rfl,
      applyLoop_mem trB (m.steps - 1) _ m.agents agents2 happ⟩

lemma modelStep_spec {m m' : DiseaseModel} {rng rng' : RNG}
    (hWF : WF m) (h : modelStep m rng = .ok (m', rng')) :
    WF m' ∧ m'.num_agents = m.num_agents ∧ m'.initInfected = m.initInfected ∧
    m'.percInfect = m.percInfect ∧ m'.percRecover = m.percRecover ∧
    m'.intervention = m.intervention ∧ m'.steps = m.steps + 1 ∧
    (∀ a ∈ m'.agents, EC m.num_agents a) ∧
    m'.trace = m.trace ++ m'.agents.map
      (fun a => ⟨m.steps, a.unique_id, a.state, a.event, a.cause⟩) := by
  have hWF0 : WF (reset_events m) := by
    obtain ⟨hlen, hpos⟩ := hWF
    refine ⟨by rw [reset_events]; dsimp only; rw [resetAgents_length, hlen], ?_⟩
    intro k hk
    show (getAgent (resetAgents m.agents) k).unique_id = k
    have h2 := resetAgents_idsFrom (posOK_idsFrom hpos) k hk
    rw [h2]
    omega
  have hreset : ∀ a' ∈ (reset_events m).agents,
      a'.event = Event.NOTHING ∧ a'.cause = -100 := by
    intro a' ha'
    rw [reset_events] at ha'
    dsimp only at ha'
    rw [resetAgents] at ha'
    obtain ⟨b, _, rfl⟩ := List.mem_map.mp ha'
    exact ⟨rfl, rfl⟩
  simp only [modelStep] at h
  cases hsch : scheduleStep (reset_events m) rng with
  | error e =>
    rw [hsch] at h
    simp at h
  | ok p =>
    obtain ⟨m1, rng1⟩ := p
    rw [hsch] at h
    dsimp only at h
    obtain ⟨g1, g2, g3, g4, g5, g6, g7, g8, g9⟩ := scheduleStep_spec hsch
    obtain ⟨hWF1, hmem1⟩ := g9 hWF0
    have hEC1 : ∀ a' ∈ m1.agents, EC m.num_agents a' := by
      intro a' ha'
      rcases hmem1 a' ha' with h1 | ⟨s, hs, b, rfl⟩ | ⟨b, rfl⟩
      · obtain ⟨he, hc⟩ := hreset a' h1
        exact EC_reset he hc
      · exact EC_infect (by simpa using hs) b
      · exact EC_recover b
    have hstepsm1 : m1.steps = m.steps + 1 := by
      rw [g6]
      rfl
    have htrm1 : m1.trace = m.trace := by
      rw [g7]
      rfl
    have hNm1 : m1.num_agents = m.num_agents := by
      rw [g1]
      rfl
    cases hint : m1.intervention with
    | none =>
      rw [hint] at h
      dsimp only at h
      rw [Except.ok.injEq, Prod.mk.injEq] at h
      obtain ⟨hm', _⟩ := h
      subst hm'
      refine ⟨⟨?_, ?_⟩, ?_, ?_, ?_, ?_, ?_, ?_, ?_, ?_⟩
      · show m1.agents.length = m1.num_agents
        exact hWF1.1
      · show PosOK m1.agents
        exact hWF1.2
      · show m1.num_agents = m.num_agents
        exact hNm1
      · show m1.initInfected = m.initInfected
        rw [g2]
        rfl
      · show m1.percInfect = m.percInfect
        rw [g3]
        rfl
      · show m1.percRecover = m.percRecover
        rw [g4]
        rfl
      · show m1.intervention = m.intervention
        rw [g5]
        rfl
      · show m1.steps = m.steps + 1
        exact hstepsm1
      · exact hEC1
      · show m1.trace ++ tickRows m1 = m.trace ++ m1.agents.map
          (fun a => ⟨m.steps, a.unique_id, a.state, a.event, a.cause⟩)
        rw [htrm1, tickRows, hstepsm1]
        rfl
    | some trB =>
      rw [hint] at h
      dsimp only at h
      cases happ : interventionApply trB m1 with
      | error e =>
        rw [happ] at h
        simp at h
      | ok m2 =>
        rw [happ] at h
        dsimp only at h
        rw [Except.ok.injEq, Prod.mk.injEq] at h
        obtain ⟨hm', _⟩ := h
        subst hm'
        obtain ⟨k1, k2, k3, k4, k5, k6, k7, k8⟩ :=
          interventionApply_frame happ
        obtain ⟨l1, l2, l3, l4, l5, _⟩ :=
          interventionApply_spec trB m1 m2 hWF1 happ
        have hEC2 : ∀ a' ∈ m2.agents, EC m.num_agents a' := by
          intro a' ha'
          rcases k8 a' ha' with h1 | ⟨b, rfl⟩
          · exact hEC1 a' h1
          · exact EC_recover b
        refine ⟨l5, show m2.num_agents = m.num_agents by rw [k1, hNm1],
          ?_, ?_, ?_, ?_, ?_, hEC2, ?_⟩
        · show m2.initInfected = m.initInfected
          rw [k2, g2]
          rfl
        · show m2.percInfect = m.percInfect
          rw [k3, g3]
          rfl
        · show m2.percRecover = m.percRecover
          rw [k4, g4]
          rfl
        · show m2.intervention = m.intervention
          rw [k5, g5]
          rfl
        · show m2.steps = m.steps + 1
          rw [k6, hstepsm1]
        · show m2.trace ++ tickRows m2 = m.trace ++ m2.agents.map
            (fun a => ⟨m.steps, a.unique_id, a.state, a.event, a.cause⟩)
          rw [k7, htrm1, tickRows, k6, hstepsm1]
          rfl

lemma getAgent_init (N : Nat) (seeds : List Nat) (pInf pRec : Rat)
    (itv : Option Trace) (i : Nat) (hi : i < N) :
    getAgent (diseaseModelInit N seeds pInf pRec itv).agents i =
      if i ∈ seeds then ⟨i, State.INFECTED, Event.INFECT, -1⟩
      else ⟨i, State.HEALTHY, Event.NOTHING, -100⟩ := by
  simp only [diseaseModelInit, List.map_map]
  rw [getAgent_map_range (h := hi)]
  by_cases h : i ∈ seeds <;> simp [h, DiseaseAgent.infect]

lemma init_length (N : Nat) (seeds : List Nat) (pInf pRec : Rat)
    (itv : Option Trace) :
    (diseaseModelInit N seeds pInf pRec itv).agents.length = N := by
  simp [diseaseModelInit]

lemma init_WF (N : Nat) (seeds : List Nat) (pInf pRec : Rat)
    (itv : Option Trace) : WF (diseaseModelInit N seeds pInf pRec itv) := by
  constructor
  · simp [diseaseModelInit]
  · intro k hk
    have hkN : k < N := by
      rw [List.mem_range, init_length] at hk
      exact hk
    rw [getAgent_init N seeds pInf pRec itv k hkN]
    split <;> rfl

lemma countAt_append (tr1 tr2 : Trace) (t : Nat) :
    countAt (tr1 ++ tr2) t = countAt tr1 t + countAt tr2 t := by
  simp [countAt, List.filter_append]

lemma countAt_batch (agents : List DiseaseAgent) (s t : Nat) :
    countAt (agents.map
      (fun a => ⟨s, a.unique_id, a.state, a.event, a.cause⟩)) t =
      if t = s then agents.length else 0 := by
  induction agents with
  | nil => simp [countAt]
  | cons a tl ih =>
    by_cases hts : t = s
    · subst hts
      simp [countAt, List.filter_cons] at ih ⊢
      omega
    · have hst : ¬ (s = t) := fun hc => hts hc.symm
      simp [countAt, List.filter_cons, hst, hts] at ih ⊢

lemma ECe_mk {N : Nat} {a : DiseaseAgent} (s : Nat) (h : EC N a) :
    ECe N ⟨s, a.unique_id, a.state, a.event, a.cause⟩ := h

lemma runTicks_spec : ∀ (k : Nat) (m : DiseaseModel) (rng : RNG)
    (m' : DiseaseModel) (rng' : RNG), WF m →
    runTicks m rng k = .ok (m', rng') →
    WF m' ∧ m'.num_agents = m.num_agents ∧ m'.steps = m.steps + k ∧
    (∀ e ∈ m'.trace, e ∈ m.trace ∨
      (ECe m.num_agents e ∧ m.steps ≤ e.step ∧ e.step < m.steps + k)) ∧
    (∀ t, countAt m'.trace t = countAt m.trace t +
      (if m.steps ≤ t ∧ t < m.steps + k then m.num_agents else 0))
  | 0, m, rng, m', rng', hWF, hok => by
    rw [runTicks] at hok
    rw [Except.ok.injEq, Prod.mk.injEq] at hok
    obtain ⟨rfl, _⟩ := hok
    refine ⟨hWF, rfl, by omega, ?_, ?_⟩
    · intro e he
      exact Or.inl he
    · intro t
      have hno : ¬ (m.steps ≤ t ∧ t < m.steps + 0) := by omega
      rw [if_neg hno]
      omega
  | (k + 1), m, rng, m', rng', hWF, hok => by
    rw [runTicks] at hok
    cases hms : modelStep m rng with
    | error e =>
      rw [hms] at hok
      simp at hok
    | ok p =>
      obtain ⟨m1, rng1⟩ := p
      rw [hms] at hok
      dsimp only at hok
      obtain ⟨hWF1, hN1, _, _, _, _, hsteps1, hEC1, htr1⟩ :=
        modelStep_spec hWF hms
      obtain ⟨hWF2, hN2, hsteps2, hmem2, hcnt2⟩ :=
        runTicks_spec k m1 rng1 m' rng' hWF1 hok
      refine ⟨hWF2, by rw [hN2, hN1], by rw [hsteps2, hsteps1]; omega,
        ?_, ?_⟩
      · intro e he
        rcases hmem2 e he with h1 | ⟨hECe, hlo, hhi⟩
        · rw [htr1] at h1
          rcases List.mem_append.mp h1 with h2 | h2
          · exact Or.inl h2
          · obtain ⟨a, ha, rfl⟩ := List.mem_map.mp h2
            refine Or.inr ⟨ECe_mk m.steps (hEC1 a ha), by dsimp only; omega,
              by dsimp only; omega⟩
        · rw [hN1] at hECe
          rw [hsteps1] at hlo hhi
          exact Or.inr ⟨hECe, by omega, by omega⟩
      · intro t
        rw [hcnt2 t, htr1, countAt_append, countAt_batch, hsteps1, hN1]
        split_ifs <;> omega

lemma reset_WF {m : DiseaseModel} (hWF : WF m) : WF (reset_events m) := by
  obtain ⟨hlen, hpos⟩ := hWF
  constructor
  · show (resetAgents m.agents).length = m.num_agents
    rw [resetAgents_length, hlen]
  intro k hk
  show (getAgent (resetAgents m.agents) k).unique_id = k
  have h2 := resetAgents_idsFrom (posOK_idsFrom hpos) k hk
  rw [h2]
  omega

lemma find_unique {α : Type} {p : α → Bool} {l : List α} {x : α}
    (hx : x ∈ l) (hpx : p x = true)
    (huniq : ∀ y ∈ l, p y = true → y = x) : l.find? p = some x := by
  induction l with
  | nil => cases hx
  | cons a tl ih =>
    by_cases hpa : p a = true
    · have hax : a = x := huniq a (List.mem_cons_self a tl) hpa
      rw [List.find?_cons_of_pos _ hpa, hax]
    · rcases List.mem_cons.mp hx with h1 | h1
      · rw [h1] at hpx
        exact absurd hpx hpa
      · rw [List.find?_cons_of_neg _ (by simpa using hpa)]
        exact ih h1 (fun y hy hpy => huniq y (List.mem_cons_of_mem a hy) hpy)

lemma recordedAt_append_batch {old : Trace} {agents : List DiseaseAgent}
    {t i : Nat} (hpos : IdsFrom 0 agents) (hi : i < agents.length) :
    recordedAt (old ++ agents.map
      (fun a => ⟨t, a.unique_id, a.state, a.event, a.cause⟩)) t i =
      some ⟨t, i, (getAgent agents i).state, (getAgent agents i).event,
        (getAgent agents i).cause⟩ := by
  have hid : (getAgent agents i).unique_id = i := by
    have := hpos i (List.mem_range.mpr hi)
    omega
  have hxmem : (⟨t, i, (getAgent agents i).state, (getAgent agents i).event,
      (getAgent agents i).cause⟩ : TraceEntry) ∈ agents.map
      (fun a => (⟨t, a.unique_id, a.state, a.event, a.cause⟩ : TraceEntry))
      := by
    refine List.mem_map.mpr ⟨getAgent agents i, ?_, ?_⟩
    · rw [getAgent_eq_getElem hi]
      exact List.getElem_mem hi
    · rw [hid]
  rw [recordedAt, List.reverse_append, List.find?_append]
  have hfind : (agents.map (fun a =>
      (⟨t, a.unique_id, a.state, a.event, a.cause⟩ :
        TraceEntry))).reverse.find?
      (fun e => decide (e.step = t ∧ e.id = i)) =
      some ⟨t, i, (getAgent agents i).state, (getAgent agents i).event,
        (getAgent agents i).cause⟩ := by
    apply find_unique
    · rw [List.mem_reverse]
      exact hxmem
    · simp
    · intro y hy hpy
      rw [List.mem_reverse] at hy
      obtain ⟨b, hb, rfl⟩ := List.mem_map.mp hy
      simp only [decide_eq_true_eq] at hpy
      have hbid : b.unique_id = i := hpy.2
      have hbeq : b = getAgent agents i := by
        rw [← hbid, mem_uid_eq hpos hb]
      rw [hbeq, hid]
  rw [hfind]
  rfl

/-! Claim C1 — trace-constrained suppression of counterfactual
infections. -/

/-- Claim C1: in a counterfactual run with an intervention, for an agent
whose event after the scheduler's activation of a tick is `INFECT`: if
the baseline's event at `(current tick, id)` is also `INFECT` the
infection is recorded unmodified, and otherwise the agent's `recover()`
runs before trace capture, so the row recorded at that key has event
`RECOVER`, state `HEALTHY` and the `-100` no-cause sentinel. -/
theorem intervention_preserves_baseline_infections
    (m m1 m' : DiseaseModel) (trB : Trace) (rng rng1 rng' : RNG) (i : Nat)
    (hWF : WF m) (hint : m.intervention = some trB)
    (hs : scheduleStep (reset_events m) rng = .ok (m1, rng1))
    (hm : modelStep m rng = .ok (m', rng'))
    (hi : i < m.num_agents)
    (hev : (getAgent m1.agents i).event = Event.INFECT) :
    (findEvent trB m.steps i = some Event.INFECT →
      recordedAt m'.trace m.steps i =
        some ⟨m.steps, i, (getAgent m1.agents i).state, Event.INFECT,
          (getAgent m1.agents i).cause⟩) ∧
    (¬ findEvent trB m.steps i = some Event.INFECT →
      recordedAt m'.trace m.steps i =
        some ⟨m.steps, i, State.HEALTHY, Event.RECOVER, -100⟩) := by
  obtain ⟨g1, g2, g3, g4, g5, g6, g7, g8, g9⟩ := scheduleStep_spec hs
  have hWF0 := reset_WF hWF
  obtain ⟨hWF1, _⟩ := g9 hWF0
  have hN1 : m1.num_agents = m.num_agents := by
    rw [g1]
    rfl
  have hsteps1 : m1.steps = m.steps + 1 := by
    rw [g6]
    rfl
  have htr1 : m1.trace = m.trace := by
    rw [g7]
    rfl
  have hint1 : m1.intervention = some trB := by
    rw [g5]
    exact hint
  simp only [modelStep] at hm
  rw [hs] at hm
  dsimp only at hm
  rw [hint1] at hm
  dsimp only at hm
  cases happ : interventionApply trB m1 with
  | error e =>
    rw [happ] at hm
    simp at hm
  | ok m2 =>
    rw [happ] at hm
    dsimp only at hm
    rw [Except.ok.injEq, Prod.mk.injEq] at hm
    obtain ⟨hm2, _⟩ := hm
    subst hm2
    obtain ⟨l1, l2, l3, l4, l5, lpt⟩ :=
      interventionApply_spec trB m1 m2 hWF1 happ
    have hiN1 : i < m1.num_agents := by omega
    have hpt := lpt i hiN1
    have hts : m1.steps - 1 = m.steps := by omega
    rw [hts] at hpt
    have hinf := hpt.1 hev
    have htrace : (collect m2).trace = m1.trace ++ m2.agents.map
        (fun a => ⟨m.steps, a.unique_id, a.state, a.event, a.cause⟩) := by
    { show m2.trace ++ tickRows m2 = _
      rw [l3]
      congr 1
      rw [tickRows]
      have hk : m2.steps - 1 = m.steps := by
        rw [l2]
        omega
      simp only [hk] }
    have hposm2 : IdsFrom 0 m2.agents := posOK_idsFrom l5.2
    have him2 : i < m2.agents.length := by
      rw [l5.1, l1]
      omega
    have hrec := @recordedAt_append_batch m1.trace m2.agents m.steps i
      hposm2 him2
    constructor
    · intro hfi
      rw [htrace, hrec]
      have hsame : getAgent m2.agents i = getAgent m1.agents i := by
        rw [hinf.2, if_pos hfi]
      rw [hsame, hev]
    · intro hfi
      rw [htrace, hrec]
      have hrcv : getAgent m2.agents i = (getAgent m1.agents i).recover := by
        rw [hinf.2, if_neg hfi]
      rw [hrcv]
      rfl

/-- Witness for C1 at a concrete first tick in which the intervention
reverts an off-baseline infection of agent 1. -/
theorem intervention_preserves_baseline_infections_witness :
    (findEvent c4wTrace 0 1 = some Event.INFECT →
      recordedAt c1wMfin.trace 0 1 =
        some ⟨0, 1, State.INFECTED, Event.INFECT, 0⟩) ∧
    (¬ findEvent c4wTrace 0 1 = some Event.INFECT →
      recordedAt c1wMfin.trace 0 1 =
        some ⟨0, 1, State.HEALTHY, Event.RECOVER, -100⟩) :=
  intervention_preserves_baseline_infections c1wModel c1wM1 c1wMfin c4wTrace
    zeroRng ⟨zeroStreams, 2, 2⟩ ⟨zeroStreams, 2, 2⟩ 1 (by decide) (by rfl)
    (by rfl) (by rfl) (by decide) (by decide)

/-! Claim C10 — event-cause coherence of every recorded trace row. -/

/-- Claim C10: for every row a run records, the cause is the `-100`
no-cause sentinel exactly when the row's event is not `INFECT` (so
`NOTHING` rows, not only `RECOVER` rows, carry the sentinel), and an
`INFECT` row's cause is an agent id in `[0, num_agents)`. -/
theorem trace_cause_sentinel_iff (s : RNGStreams) (N : Nat)
    (seeds : List Nat) (pInf pRec : Rat) (T : Nat) (itv : Option Trace)
    (rng : RNG) (tr : Trace) (rng' : RNG)
    (hrun : run s N seeds pInf pRec T itv rng = .ok (tr, rng'))
    (e : TraceEntry) (he : e ∈ tr) :
    (e.cause = -100 ↔ ¬ e.event = Event.INFECT) ∧
    (e.event = Event.INFECT → 0 ≤ e.cause ∧ e.cause < (N : Int)) := by
  simp only [run, pySeed] at hrun
  cases hrt : runTicks (diseaseModelInit N seeds pInf pRec itv)
      ⟨s, 0, 0⟩ T with
  | error e2 =>
    rw [hrt] at hrun
    simp at hrun
  | ok p =>
    obtain ⟨m1, rng2⟩ := p
    rw [hrt] at hrun
    dsimp only at hrun
    rw [Except.ok.injEq, Prod.mk.injEq] at hrun
    obtain ⟨htr, _⟩ := hrun
    subst htr
    obtain ⟨_, _, _, hmem, _⟩ := runTicks_spec T _ _ _ _
      (init_WF N seeds pInf pRec itv) hrt
    rcases hmem e he with h1 | ⟨hECe, _⟩
    · simp [diseaseModelInit] at h1
    · have hNi : (diseaseModelInit N seeds pInf pRec itv).num_agents = N :=
        rfl
      rw [hNi] at hECe
      exact hECe

/-- Witness for C10 at a row of a concrete one-tick run. -/
theorem trace_cause_sentinel_iff_witness :
    ((⟨0, 0, State.INFECTED, Event.NOTHING, -100⟩ : TraceEntry).cause =
        -100 ↔
      ¬ (⟨0, 0, State.INFECTED, Event.NOTHING, -100⟩ : TraceEntry).event =
        Event.INFECT) ∧
    ((⟨0, 0, State.INFECTED, Event.NOTHING, -100⟩ : TraceEntry).event =
        Event.INFECT →
      0 ≤ (⟨0, 0, State.INFECTED, Event.NOTHING, -100⟩ : TraceEntry).cause ∧
      (⟨0, 0, State.INFECTED, Event.NOTHING, -100⟩ : TraceEntry).cause <
        ((2 : Nat) : Int)) :=
  trace_cause_sentinel_iff inertStreams 2 [0] (mkRat 1 2) (mkRat 1 20) 1
    none rng0
    [⟨0, 0, State.INFECTED, Event.NOTHING, -100⟩,
     ⟨0, 1, State.HEALTHY, Event.NOTHING, -100⟩] ⟨inertStreams, 2, 2⟩
    (by rfl) _ (by decide)

/-! Claim C7 — tick counter and tick completeness of the trace. -/

/-- Claim C7: every successful `Model.step()` advances the tick counter by
exactly one and appends exactly one row per agent keyed by the completed
tick; consequently, over a run of `numTicks` ticks the trace holds
exactly `num_agents` rows for every tick `t < numTicks` (bystanders are
rows too — every agent is recorded each tick). -/
theorem tick_completeness :
    (∀ (m : DiseaseModel) (rng : RNG) (m' : DiseaseModel) (rng' : RNG),
      WF m → modelStep m rng = .ok (m', rng') →
      m'.steps = m.steps + 1 ∧
      ∃ rows : Trace, m'.trace = m.trace ++ rows ∧
        rows.map (fun e => (e.step, e.id)) =
          (List.range m.num_agents).map (fun i => (m.steps, i))) ∧
    (∀ (s : RNGStreams) (N : Nat) (seeds : List Nat) (pInf pRec : Rat)
      (T : Nat) (itv : Option Trace) (rng : RNG) (tr : Trace) (rng' : RNG),
      run s N seeds pInf pRec T itv rng = .ok (tr, rng') →
      ∀ t, t < T → countAt tr t = N) := by
  constructor
  · intro m rng m' rng' hWF hstep
    obtain ⟨hWF', hN', _, _, _, _, hsteps', _, htr'⟩ :=
      modelStep_spec hWF hstep
    refine ⟨hsteps', m'.agents.map
      (fun a => ⟨m.steps, a.unique_id, a.state, a.event, a.cause⟩),
      htr', ?_⟩
    have huid := map_uid_eq_range (posOK_idsFrom hWF'.2)
    have hlen' : m'.agents.length = m.num_agents := by
      rw [hWF'.1, hN']
    rw [hlen'] at huid
    rw [List.map_map, ← huid, List.map_map]
    rfl
  · intro s N seeds pInf pRec T itv rng tr rng' hrun t ht
    simp only [run, pySeed] at hrun
    cases hrt : runTicks (diseaseModelInit N seeds pInf pRec itv)
        ⟨s, 0, 0⟩ T with
    | error e2 =>
      rw [hrt] at hrun
      simp at hrun
    | ok p =>
      obtain ⟨m1, rng2⟩ := p
      rw [hrt] at hrun
      dsimp only at hrun
      rw [Except.ok.injEq, Prod.mk.injEq] at hrun
      obtain ⟨htr, _⟩ := hrun
      subst htr
      obtain ⟨_, _, _, _, hcnt⟩ := runTicks_spec T _ _ _ _
        (init_WF N seeds pInf pRec itv) hrt
      have hc := hcnt t
      have hini : (diseaseModelInit N seeds pInf pRec itv).steps = 0 := rfl
      have htrn : (diseaseModelInit N seeds pInf pRec itv).trace = [] := rfl
      have hNi : (diseaseModelInit N seeds pInf pRec itv).num_agents = N :=
        rfl
      rw [hini, htrn, hNi] at hc
      rw [hc, if_pos ⟨Nat.zero_le t, by omega⟩]
      simp [countAt]

/-- Witness for C7 at a concrete one-tick run. -/
theorem tick_completeness_witness :
    countAt [(⟨0, 0, State.INFECTED, Event.NOTHING, -100⟩ : TraceEntry),
      ⟨0, 1, State.HEALTHY, Event.NOTHING, -100⟩] 0 = 2 :=
  tick_completeness.2 inertStreams 2 [0] (mkRat 1 2) (mkRat 1 20) 1 none
    rng0
    [⟨0, 0, State.INFECTED, Event.NOTHING, -100⟩,
     ⟨0, 1, State.HEALTHY, Event.NOTHING, -100⟩] ⟨inertStreams, 2, 2⟩
    (by rfl) 0 (by decide)

/-! Claim C8 — determinism of `run` for a fixed seed. -/

/-- Claim C8: for a fixed seed (a fixed seeded draw stream), any two
invocations of `run` with identical parameters produce identical results —
in particular identical traces, whatever the state the global generator
was left in by earlier runs, because `run` begins with `random.seed(1)`. -/
theorem run_determinism (seed1 : RNGStreams) (numAgents : Nat)
    (initInfected : List Nat) (percInfect percRecover : Rat) (numTicks : Nat)
    (intervention : Option Trace) (rngA rngB : RNG) :
    run seed1 numAgents initInfected percInfect percRecover numTicks
      intervention rngA =
    run seed1 numAgents initInfected percInfect percRecover numTicks
      intervention rngB := rfl

/-! Claim C3 — constructor validation. -/

/-- Claim C3 counterexample: the constructor accepts a configuration the
spec's check rejects (seed id `5` with two agents, `percInfect = 2`,
`percRecover = -1`): no `ConfigurationError` exists, the model is built,
and its simulation state is subsequently stepped successfully. -/
theorem config_validation_absent_cx :
    specConfigOk 2 [5] (mkRat 2 1) (mkRat (-1) 1) = false ∧
    isOk (modelStep (diseaseModelInit 2 [5] (mkRat 2 1) (mkRat (-1) 1) none)
      rng0) = true := by decide

/-- Claim C3 (amended): the constructor performs no validation at all —
seed ids outside `[0, num_agents)` are silently ignored (they change no
agent), out-of-range probabilities are stored as given, and a zero-agent
model constructs successfully, failing only later inside the scheduler's
empty `random.choice` when stepped. -/
theorem config_no_validation :
    (∀ (N : Nat) (seeds : List Nat) (pInf pRec : Rat) (itv : Option Trace),
      (diseaseModelInit N seeds pInf pRec itv).agents =
        (diseaseModelInit N (seeds.filter (fun x => decide (x < N)))
          pInf pRec itv).agents ∧
      (diseaseModelInit N seeds pInf pRec itv).percInfect = pInf ∧
      (diseaseModelInit N seeds pInf pRec itv).percRecover = pRec) ∧
    (∀ (seeds : List Nat) (pInf pRec : Rat) (itv : Option Trace) (rng : RNG),
      modelStep (diseaseModelInit 0 seeds pInf pRec itv) rng =
        .error "Cannot choose from an empty sequence") := by
  constructor
  · intro N seeds pInf pRec itv
    refine ⟨?_, rfl, rfl⟩
    simp only [diseaseModelInit, List.map_map]
    apply List.map_congr_left
    intro i hi
    simp only [Function.comp, DiseaseAgent.infect, List.mem_filter,
      List.mem_range.mp hi, decide_eq_true_eq]
    by_cases h : i ∈ seeds <;> simp [h, List.mem_range.mp hi]
  · intro seeds pInf pRec itv rng
    simp [modelStep, diseaseModelInit, reset_events, resetAgents,
      scheduleStep, randChoice]

/-! Claim C5 — agent fields immediately after construction. -/

/-- Claim C5 counterexample: immediately after construction, a seeded
agent's cause is `-1` (the default sender placeholder of `infect`), which
is not the `-100` no-cause sentinel that construction, `reset_events` and
`recover` use. -/
theorem seed_infection_cause_cx :
    (getAgent (diseaseModelInit 2 [0] (mkRat 1 2) (mkRat 1 20) none).agents
      0).state = State.INFECTED ∧
    (getAgent (diseaseModelInit 2 [0] (mkRat 1 2) (mkRat 1 20) none).agents
      0).event = Event.INFECT ∧
    (getAgent (diseaseModelInit 2 [0] (mkRat 1 2) (mkRat 1 20) none).agents
      0).cause = -1 ∧
    ¬ (getAgent (diseaseModelInit 2 [0] (mkRat 1 2) (mkRat 1 20) none).agents
      0).cause = -100 := by decide

/-- Claim C5 (amended): after construction, an agent whose id is seeded is
`INFECTED` with `last_event = INFECT` and `cause = -1` — the default
sender placeholder, not the `-100` no-cause sentinel — while every other
agent is `HEALTHY` with `last_event = NOTHING` and `cause = -100`. -/
theorem initial_agent_fields (N : Nat) (seeds : List Nat) (pInf pRec : Rat)
    (itv : Option Trace) (i : Nat) (hi : i < N) :
    getAgent (diseaseModelInit N seeds pInf pRec itv).agents i =
      if i ∈ seeds then ⟨i, State.INFECTED, Event.INFECT, -1⟩
      else ⟨i, State.HEALTHY, Event.NOTHING, -100⟩ :=
  getAgent_init N seeds pInf pRec itv i hi

/-! Claim C9 — activation with no eligible neighbour. -/

/-- Claim C9: if the scheduler activates an agent whose neighbour list is
empty (with the complete-graph topology this happens exactly for a single
agent, for which the only candidate — itself — is excluded by
`include_center = False`), the neighbour-selection step fails with the
empty-`random.choice` precondition violation rather than completing as a
no-op, and the failure aborts `Model.step()` for that run. -/
theorem no_neighbor_fatal (m : DiseaseModel) (rng : RNG) (hWF : WF m) :
    (∀ i, neighborIds m.num_agents i = [] →
      agentStep m i rng = .error "Cannot choose from an empty sequence") ∧
    (m.num_agents = 1 →
      modelStep m rng = .error "Cannot choose from an empty sequence") := by
  constructor
  · intro i hempty
    simp [agentStep, hempty, randChoice]
  · intro hN
    obtain ⟨hlen, hpos⟩ := hWF
    rw [hN] at hlen
    obtain ⟨a, ha⟩ := List.length_eq_one.mp hlen
    have h0 : 0 ∈ List.range m.agents.length := by
      rw [hlen]; decide
    have hid : a.unique_id = 0 := by
      have h := hpos 0 h0
      rw [ha] at h
      exact h
    simp only [modelStep, reset_events, resetAgents, ha, scheduleStep]
    simp only [randChoice, List.length_map, List.length_cons,
      List.length_nil]
    simp only [List.map_cons, List.map_nil, Nat.mod_one]
    simp [agentStep, hid, hN, randChoice, neighborIds, List.range_succ]

/-! Claim C6 — pre-step semantics of one activation. -/

/-- Claim C6: in one activation, both checks read the acting agent's
pre-step `INFECTED` state, the neighbour is the element the draw selects
from the full unfiltered neighbour list, and the recovery performed in
the same activation does not cancel the infection already delivered: if
the actor is infected, `rand_inf` passes, the chosen neighbour is not
infected and `rand_rec` passes, then the neighbour ends the activation
infected with `cause` the actor's id while the actor ends it healthy. -/
theorem agent_step_prestep_semantics
    (m : DiseaseModel) (i j : Nat) (rng : RNG)
    (hWF : WF m) (hi : i < m.num_agents)
    (hne : neighborIds m.num_agents i ≠ [])
    (hj : j = (neighborIds m.num_agents i).getD
      (rng.streams.ints rng.ipos % (neighborIds m.num_agents i).length) 0)
    (hself : (getAgent m.agents i).state = State.INFECTED)
    (hinf : rng.streams.floats rng.fpos < m.percInfect)
    (hnbr : ¬ (getAgent m.agents j).state = State.INFECTED)
    (hrec : rng.streams.floats (rng.fpos + 1) < m.percRecover) :
    ∃ m2 rng3, agentStep m i rng = .ok (m2, rng3) ∧
      getAgent m2.agents j = (getAgent m.agents j).infect (Int.ofNat i) ∧
      (getAgent m2.agents i).state = State.HEALTHY ∧
      (getAgent m2.agents i).event = Event.RECOVER := by
  obtain ⟨hlen, _hpos⟩ := hWF
  have hlen0 : (neighborIds m.num_agents i).length ≠ 0 := by
    simpa [List.length_eq_zero] using hne
  have hbound : rng.streams.ints rng.ipos % (neighborIds m.num_agents i).length
      < (neighborIds m.num_agents i).length :=
    Nat.mod_lt _ (Nat.pos_of_ne_zero hlen0)
  have hjget : (neighborIds m.num_agents i).get
      ⟨rng.streams.ints rng.ipos % (neighborIds m.num_agents i).length,
        hbound⟩ = j := by
    rw [hj, List.getD_eq_getElem?_getD, List.getElem?_eq_getElem hbound]
    rfl
  have hjmem : j ∈ neighborIds m.num_agents i := hjget ▸ List.get_mem _ _ _
  have hji : j ≠ i := (mem_neighborIds.mp hjmem).2
  have hjN : j < m.num_agents := (mem_neighborIds.mp hjmem).1
  have hkey : agentStep m i rng = .ok ({ m with agents := setAgent (setAgent m.agents j ((getAgent m.agents j).infect (Int.ofNat i))) i ((getAgent m.agents i).recover) }, ⟨rng.streams, rng.fpos + 1 + 1, rng.ipos + 1⟩) := by
    have hc1 : (getAgent m.agents i).state = State.INFECTED ∧
        rng.streams.floats rng.fpos < m.percInfect := ⟨hself, hinf⟩
    have hc2 : (getAgent m.agents i).state = State.INFECTED ∧
        rng.streams.floats (rng.fpos + 1) < m.percRecover := ⟨hself, hrec⟩
    simp only [agentStep, randFloat]
    rw [randChoice_ok _ hlen0]
    simp only [hjget, if_pos hc1, if_pos hnbr, getAgent_set_ne hji,
      if_pos hc2]
  have hlen2 : (setAgent m.agents j
      ((getAgent m.agents j).infect (Int.ofNat i))).length = m.num_agents := by
    rw [setAgent, List.length_set, hlen]
  refine ⟨_, _, hkey, ?_, ?_, ?_⟩
  · rw [getAgent_set_ne hji.symm,
      getAgent_set_eq (by rw [hlen]; exact hjN)]
  · rw [getAgent_set_eq (by rw [hlen2]; exact hi)]
    rfl
  · rw [getAgent_set_eq (by rw [hlen2]; exact hi)]
    rfl

/-- Witness for C9 at a one-agent model. -/
theorem no_neighbor_fatal_witness :
    modelStep (diseaseModelInit 1 [] (mkRat 1 2) (mkRat 1 20) none) rng0 =
      .error "Cannot choose from an empty sequence" :=
  (no_neighbor_fatal (diseaseModelInit 1 [] (mkRat 1 2) (mkRat 1 20) none)
    rng0 (by decide)).2 (by decide)

/-- Witness for C6 at a concrete two-agent activation with zero draws. -/
theorem agent_step_prestep_semantics_witness :
    ∃ m2 rng3,
      agentStep (diseaseModelInit 2 [0] (mkRat 1 2) (mkRat 1 20) none) 0
        zeroRng = .ok (m2, rng3) ∧
      getAgent m2.agents 1 =
        (getAgent (diseaseModelInit 2 [0] (mkRat 1 2) (mkRat 1 20)
          none).agents 1).infect (Int.ofNat 0) ∧
      (getAgent m2.agents 0).state = State.HEALTHY ∧
      (getAgent m2.agents 0).event = Event.RECOVER :=
  agent_step_prestep_semantics _ 0 1 zeroRng (by decide) (by decide)
    (by decide) (by decide) (by decide) (by decide) (by decide) (by decide)

/-! Claim C2 — causal relation computed by the harness. -/

set_option maxRecDepth 8000000 in
set_option maxHeartbeats 4000000 in
/-- Claim C2 (divergence at a concrete draw sequence): with draws under
which no infection or recovery check ever fires, the harness reports
`causal_relation["tr_simpleCF2_wo0"] = {1}`, computed from the stale
trace of the first loop's last variant (seeds `[0]`), while the variant's
own run (seeds `[1]`) ends with infected set `{1}`, so the diff the claim
prescribes is `{0, 1} − {1} = {0}`: the reported set contains `1`, the
prescribed set does not.  Line 162 of the source discards `run`'s result,
so line 163 reuses the previous loop's `trace` variable. -/
theorem causal_relation_stale_trace_divergence :
    lookupRel (mainRun inertStreams rng0) "tr_simpleCF2_wo0" = some [1] ∧
    runFinal inertStreams [1] = some [1] ∧
    runFinal inertStreams [0, 1] = some [0, 1] ∧
    pySetDiff [0, 1] [1] = [0] ∧
    1 ∈ ([1] : List Nat) ∧ (1 : Nat) ∉ ([0] : List Nat) :=
  ⟨by decide, by decide, by decide, by decide, by decide, by decide⟩

/-- Witness for the amended C5 theorem at a concrete construction. -/
theorem initial_agent_fields_witness :
    getAgent (diseaseModelInit 2 [0] (mkRat 1 2) (mkRat 1 20) none).agents 0 =
      ⟨0, State.INFECTED, Event.INFECT, -1⟩ ∧
    getAgent (diseaseModelInit 2 [0] (mkRat 1 2) (mkRat 1 20) none).agents 1 =
      ⟨1, State.HEALTHY, Event.NOTHING, -100⟩ := by
  constructor
  · have h := initial_agent_fields 2 [0] (mkRat 1 2) (mkRat 1 20) none 0
      (by decide)
    simpa using h
  · have h := initial_agent_fields 2 [0] (mkRat 1 2) (mkRat 1 20) none 1
      (by decide)
    simpa using h

end Contagion
